import Mathlib

/-!
Shallow embedding of `src/main.rs` of the scraper CLI: site-rule resolution,
headline extraction and filtering, sentiment aggregation and the two run modes.
Rust strings are modelled as `List Char`; the network, the HTML parser and the
VADER sentiment scorer are black-box parameters, exactly as the spec scopes them.
-/

deriving instance DecidableEq for Except

namespace Scraper

/-- Rust `&str` / `String`, modelled as a list of characters. -/
abbrev Str := List Char

/-- Shorthand turning a Lean string literal into the model type. -/
def str (s : String) : Str := s.data

/-- Rust `char::is_whitespace`: the Unicode `White_Space` property
(U+0009..U+000D, U+0020, U+0085, U+00A0, U+1680, U+2000..U+200A,
U+2028, U+2029, U+202F, U+205F, U+3000). -/
def rustIsWhitespace (c : Char) : Bool :=
  let n := c.toNat
  decide ((9 ≤ n ∧ n ≤ 13) ∨ n = 32 ∨ n = 133 ∨ n = 160 ∨ n = 5760 ∨
    (8192 ≤ n ∧ n ≤ 8202) ∨ n = 8232 ∨ n = 8233 ∨ n = 8239 ∨ n = 8287 ∨ n = 12288)

/-- Leading-whitespace removal (`str::trim_start`). -/
def trimStart (s : Str) : Str := s.dropWhile rustIsWhitespace

/-- Trailing-whitespace removal (`str::trim_end`). -/
def trimEnd (s : Str) : Str := (s.reverse.dropWhile rustIsWhitespace).reverse

/-- Rust `str::trim`: strip whitespace from both ends. -/
def trim (s : Str) : Str := trimEnd (trimStart s)

/-- Helper for `splitWhitespace`: `acc` holds the current word reversed. -/
def splitWhitespaceAux : Str → Str → List Str
  | [], acc => if acc.isEmpty then [] else [acc.reverse]
  | c :: cs, acc =>
    if rustIsWhitespace c then
      if acc.isEmpty then splitWhitespaceAux cs []
      else acc.reverse :: splitWhitespaceAux cs []
    else splitWhitespaceAux cs (c :: acc)

/-- Rust `str::split_whitespace`: maximal runs of non-whitespace characters. -/
def splitWhitespace (s : Str) : List Str := splitWhitespaceAux s []

/-- The count `text.split_whitespace().count()` from the filter predicate in
`fetch_website_data`. -/
def wordCount (s : Str) : Nat := (splitWhitespace s).length

/-- The `unwanted_headlines` vector of `fetch_website_data`. -/
def unwantedHeadlines : List Str :=
  [str "Connections Companion", str "Spelling Bee",
   str "The Crossword", str "Read full edition"]

/-- The filter predicate of `fetch_website_data`, applied to the already
trimmed text: `text.split_whitespace().count() > 1 &&
!unwanted_headlines.contains(&text.as_str())`. -/
def keepHeadline (t : Str) : Bool :=
  decide (1 < wordCount t) && !(unwantedHeadlines.contains t)

/-- The trim-and-filter part of the `filter_map` in `fetch_website_data`:
each candidate string is trimmed, then kept exactly when the filter
predicate holds of the trimmed text. -/
def filterHeadlines (cs : List Str) : List Str :=
  cs.filterMap (fun c =>
    let t := trim c
    if keepHeadline t then some t else none)

/-- A matched HTML element, reduced to what the extraction code reads:
its attribute list and its descendant text nodes in order. -/
structure Element where
  attrs : List (Str × Str)
  texts : List Str
deriving DecidableEq

/-- Rust `element.value().attr(name)`: the value of the named attribute, if present. -/
def lookupAttr (e : Element) (name : Str) : Option Str :=
  (e.attrs.find? (fun p => p.1 == name)).map (fun p => p.2)

/-- Rust `element.text().collect::<Vec<_>>().join(" ")`. -/
def joinSpace (ts : List Str) : Str := List.intercalate (str " ") ts

/-- The raw candidate string pulled from one element, before trimming:
the value of the named attribute (empty string when absent, `unwrap_or` of the empty string),
or the space-joined descendant text when no attribute is configured. -/
def rawCandidate (attr : Option Str) (e : Element) : Str :=
  match attr with
  | some a => (lookupAttr e a).getD []
  | none => joinSpace e.texts

/-- The whole `filter_map` over the selected elements in
`fetch_website_data`: raw candidate per element, trim, filter. -/
def extractHeadlines (attr : Option Str) (es : List Element) : List Str :=
  filterHeadlines (es.map (rawCandidate attr))

/-- The `ScraperError` enum: a network error (`RequestError`, from
`reqwest::Error`, payload abstracted away) or `ParseError`. These are the
only two error kinds the program has. -/
inductive ScraperError where
  | RequestError
  | ParseError
deriving DecidableEq

/-- A resolved extraction rule: the CSS selector (kept as its source
string; all five fixed selectors parse successfully) plus the optional
attribute to read instead of the element text. -/
structure ExtractionRule where
  selector : Str
  attr : Option Str
deriving DecidableEq

def nytimesRule : ExtractionRule := ⟨str "p.indicate-hover", none⟩
def guardianRule : ExtractionRule := ⟨str "a.dcr-lv2v9o", some (str "aria-label")⟩
def bbcRule : ExtractionRule := ⟨str "h2[data-testid=\x27card-headline\x27]", none⟩
def natureRule : ExtractionRule := ⟨str "a.c-card__link", none⟩
def economistRule : ExtractionRule := ⟨str "a[data-analytics]", none⟩

/-- Rust `str::contains(pat)`: `pat` occurs as a contiguous substring of
`s` (the empty pattern always matches). -/
def containsSub (s pat : Str) : Bool :=
  match s with
  | [] => pat.isEmpty
  | _ :: cs => pat.isPrefixOf s || containsSub cs pat

/-- The if/else chain of `fetch_website_data` choosing selector and
attribute from the URL; the final `else` branch is
`return Err(ScraperError::ParseError)`. -/
def resolveRule (url : Str) : Except ScraperError ExtractionRule :=
  if containsSub url (str "nytimes.com") then .ok nytimesRule
  else if containsSub url (str "theguardian.com") then .ok guardianRule
  else if containsSub url (str "bbc.com") then .ok bbcRule
  else if containsSub url (str "nature.com") then .ok natureRule
  else if containsSub url (str "economist.com") then .ok economistRule
  else .error .ParseError

/-- Modelled from the spec: the ordered site-rule table of section 4.2,
domain substring first, rule second. -/
def ruleTable : List (Str × ExtractionRule) :=
  [(str "nytimes.com", nytimesRule),
   (str "theguardian.com", guardianRule),
   (str "bbc.com", bbcRule),
   (str "nature.com", natureRule),
   (str "economist.com", economistRule)]

/-- Modelled from the spec: first-match resolution over the ordered rule
table (`resolve(url)`), to be compared with the if/else chain of the code. -/
def resolveSpec (url : Str) : Except ScraperError ExtractionRule :=
  match ruleTable.find? (fun p => containsSub url p.1) with
  | some p => .ok p.2
  | none => .error .ParseError

/-- An `f64` value as the program can produce it from exact score sums:
a finite number (exact rational; rounding of well-defined finite results
is out of scope) or one of the IEEE non-finite results of dividing by a
zero count. -/
inductive FVal where
  | num (q : ℚ)
  | nan
  | posInf
  | negInf
deriving DecidableEq

/-- IEEE division of a finite sum `x` by a count `n` (`as f64`):
`0.0/0.0` is NaN, `x/0.0` with `x ≠ 0` is a signed infinity, otherwise
the exact quotient. -/
def fdiv (x : ℚ) (n : Nat) : FVal :=
  if n = 0 then
    if x = 0 then .nan else if 0 < x then .posInf else .negInf
  else .num (x / n)

/-- The function `perform_sentiment_analysis`: one result per headline, in order, each
pairing the headline with its compound score; the scorer itself
(`SentimentIntensityAnalyzer::polarity_scores`, with the
`unwrap_or(&0.0)` default) is the black-box `score` parameter. The
function always returns `Ok`. -/
def performSentimentAnalysis (score : Str → ℚ) (headlines : List Str) :
    Except ScraperError (List (Str × ℚ)) :=
  .ok (headlines.map (fun h => (h, score h)))

/-- The average computed by `print_sentiment_results`: the sum of the
sentiment values divided by `results.len() as f64`, with no emptiness
guard. -/
def overallSentiment (results : List (Str × ℚ)) : FVal :=
  fdiv (results.map Prod.snd).sum results.length

/-- One console print event of the program. -/
inductive Out where
  | headlineSentiment (headline : Str) (sentiment : ℚ)
  | overall (v : FVal)
deriving DecidableEq

/-- The function `print_sentiment_results`: a `Headline:`/`Sentiment:` block per
result, then the `Overall Sentiment:` line with the unguarded average. -/
def printSentimentResults (results : List (Str × ℚ)) : List Out :=
  results.map (fun r => Out.headlineSentiment r.1 r.2) ++
    [Out.overall (overallSentiment results)]

/-- The parsed command-line arguments (`Args`): an optional URL and the
`--all` flag. There is no field requesting or suppressing sentiment. -/
structure Args where
  url : Option Str
  all : Bool
deriving DecidableEq

/-- The `SOURCES` constant. -/
def SOURCES : List Str :=
  [str "https://www.nytimes.com", str "https://www.theguardian.com",
   str "https://www.bbc.com", str "https://www.nature.com",
   str "https://www.economist.com"]

/-- The key `"headlines"` under which `fetch_website_data` stores its
result. -/
def headlinesKey : Str := str "headlines"

/-- Rust `HashMap::get` on the association-list model of
`HashMap<String, Vec<String>>`. -/
def lookupMap (m : List (Str × List Str)) (k : Str) : Option (List Str) :=
  (m.find? (fun p => p.1 == k)).map (fun p => p.2)

/-- The function `fetch_website_data`, with the network and the HTML document
abstracted: `net url = true` models a failed request or body read
(`reqwest::Error`, becoming `RequestError` by `#[from]`), and
`elems url rule` stands for the elements of the parsed document matching
the selector of the rule, in document order. On success the result is the map
holding the filtered headlines under `"headlines"`. -/
def fetchWebsiteData (net : Str → Bool) (elems : Str → ExtractionRule → List Element)
    (url : Str) : Except ScraperError (List (Str × List Str)) :=
  if net url then .error .RequestError
  else
    match resolveRule url with
    | .error e => .error e
    | .ok rule => .ok [(headlinesKey, extractHeadlines rule.attr (elems url rule))]

/-- The `--all` loop of `main`: fetch each source in order, look up
`"headlines"` (`.get(..).unwrap()`: `none` models the unwrap panic) and
concatenate; the first error aborts the batch. -/
def collectAll (net : Str → Bool) (elems : Str → ExtractionRule → List Element) :
    List Str → Option (Except ScraperError (List Str))
  | [] => some (.ok [])
  | src :: rest =>
    match fetchWebsiteData net elems src with
    | .error e => some (.error e)
    | .ok m =>
      match lookupMap m headlinesKey with
      | none => none
      | some hs =>
        match collectAll net elems rest with
        | none => none
        | some (.error e) => some (.error e)
        | some (.ok acc) => some (.ok (hs ++ acc))

/-- The body of `main` after argument parsing: the `--all` branch folds over
`SOURCES`; the `--url` branch runs the pipeline once; with neither, the
body is skipped and the run succeeds printing nothing. The outer `none`
models an `unwrap` panic; otherwise the program either returns the error
(non-zero exit) or succeeds with the list of print events. -/
def runMain (net : Str → Bool) (elems : Str → ExtractionRule → List Element)
    (score : Str → ℚ) (args : Args) : Option (Except ScraperError (List Out)) :=
  if args.all then
    match collectAll net elems SOURCES with
    | none => none
    | some (.error e) => some (.error e)
    | some (.ok allHeadlines) =>
      match performSentimentAnalysis score allHeadlines with
      | .error e => some (.error e)
      | .ok results => some (.ok (printSentimentResults results))
  else
    match args.url with
    | some url =>
      match fetchWebsiteData net elems url with
      | .error e => some (.error e)
      | .ok m =>
        match lookupMap m headlinesKey with
        | none => none
        | some hs =>
          match performSentimentAnalysis score hs with
          | .error e => some (.error e)
          | .ok results => some (.ok (printSentimentResults results))
    | none => some (.ok [])

/-! ### Helper lemmas about trimming and filtering -/

lemma dropWhile_idem (p : Char → Bool) (l : List Char) :
    (l.dropWhile p).dropWhile p = l.dropWhile p := by
  cases h : l.dropWhile p with
  | nil => simp
  | cons a t =>
    have hp : p a = false := by
      have h2 := List.head?_dropWhile_not p l
      rw [h] at h2
      simpa using h2
    simp [List.dropWhile_cons, hp]

lemma ws_false_of_dropWhile_self (p : Char → Bool) (a : Char) (l : List Char)
    (h : (a :: l).dropWhile p = a :: l) : p a = false := by
  by_contra hp
  rw [Bool.not_eq_false] at hp
  rw [List.dropWhile_cons_of_pos hp] at h
  have hle : (l.dropWhile p).length ≤ l.length :=
    (List.dropWhile_suffix p).length_le
  rw [h] at hle
  simp at hle

lemma trimStart_idem (s : Str) : trimStart (trimStart s) = trimStart s :=
  dropWhile_idem rustIsWhitespace s

lemma trimEnd_idem (s : Str) : trimEnd (trimEnd s) = trimEnd s := by
  simp [trimEnd, List.reverse_reverse, dropWhile_idem]

lemma trimStart_trimEnd (s : Str) (h : trimStart s = s) :
    trimStart (trimEnd s) = trimEnd s := by
  have hsfx : ((trimEnd s).reverse) <:+ s.reverse := by
    rw [trimEnd, List.reverse_reverse]
    exact List.dropWhile_suffix rustIsWhitespace
  have hpre := List.reverse_suffix.mp hsfx
  obtain ⟨t, ht⟩ := hpre
  cases he : trimEnd s with
  | nil => rfl
  | cons a r =>
    rw [he] at ht
    rw [← ht, List.cons_append] at h
    have hpa := ws_false_of_dropWhile_self rustIsWhitespace a (r ++ t) h
    simp [trimStart, List.dropWhile_cons, hpa]

lemma trim_idem (s : Str) : trim (trim s) = trim s := by
  rw [trim, trim, trimStart_trimEnd (trimStart s) (trimStart_idem s)]
  exact trimEnd_idem (trimStart s)

lemma filterHeadlines_eq (cs : List Str) :
    filterHeadlines cs = (cs.map trim).filter keepHeadline := by
  induction cs with
  | nil => rfl
  | cons c cs ih =>
    by_cases h : keepHeadline (trim c) = true
    · simp only [filterHeadlines, List.filterMap_cons, List.map_cons,
        List.filter_cons] at *
      simp only [h, if_pos rfl]
      simp only [ih]
      rfl
    · simp only [filterHeadlines, List.filterMap_cons, List.map_cons,
        List.filter_cons] at *
      rw [Bool.not_eq_true] at h
      simp only [h]
      simpa using ih

lemma mem_filterHeadlines {cs : List Str} {h : Str} (hm : h ∈ filterHeadlines cs) :
    trim h = h ∧ keepHeadline h = true := by
  rw [filterHeadlines_eq] at hm
  rw [List.mem_filter] at hm
  obtain ⟨hmem, hkeep⟩ := hm
  obtain ⟨c, _, rfl⟩ := List.mem_map.mp hmem
  exact ⟨trim_idem c, hkeep⟩

lemma keepHeadline_eq_false (t : Str) :
    keepHeadline t = false ↔ wordCount t ≤ 1 ∨ t ∈ unwantedHeadlines := by
  by_cases hm : t ∈ unwantedHeadlines
  · have hc : unwantedHeadlines.contains t = true := by
      simp [List.contains, List.elem_iff, hm]
    simp [keepHeadline, hc, hm]
  · have hc : unwantedHeadlines.contains t = false := by
      simp [List.contains, List.elem_iff, hm]
    simp [keepHeadline, hc, hm, Nat.not_lt]

lemma fetch_ok_lookup (net : Str → Bool) (elems : Str → ExtractionRule → List Element)
    (url : Str) (m : List (Str × List Str))
    (h : fetchWebsiteData net elems url = .ok m) :
    (lookupMap m headlinesKey).isSome = true := by
  unfold fetchWebsiteData at h
  by_cases hn : net url = true
  · simp [hn] at h
  · rw [Bool.not_eq_true] at hn
    simp only [hn, Bool.false_eq_true, if_false] at h
    cases hr : resolveRule url with
    | error e => rw [hr] at h; cases h
    | ok rule =>
      rw [hr] at h
      simp only [Except.ok.injEq] at h
      subst h
      simp [lookupMap, List.find?]

lemma collectAll_ne_none (net : Str → Bool) (elems : Str → ExtractionRule → List Element) :
    ∀ srcs : List Str, collectAll net elems srcs ≠ none := by
  intro srcs
  induction srcs with
  | nil => simp [collectAll]
  | cons s rest ih =>
    unfold collectAll
    cases hf : fetchWebsiteData net elems s with
    | error e => simp
    | ok m =>
      have hsome := fetch_ok_lookup net elems s m hf
      obtain ⟨hs, hEq⟩ := Option.isSome_iff_exists.mp hsome
      cases hc : collectAll net elems rest with
      | none => exact absurd hc ih
      | some r =>
        cases r with
        | error e => simp [hEq, hc]
        | ok acc => simp [hEq, hc]

lemma runMain_ne_none (net : Str → Bool) (elems : Str → ExtractionRule → List Element)
    (score : Str → ℚ) (args : Args) : runMain net elems score args ≠ none := by
  unfold runMain
  by_cases ha : args.all = true
  · simp only [ha, if_true]
    cases hc : collectAll net elems SOURCES with
    | none => exact absurd hc (collectAll_ne_none net elems SOURCES)
    | some r =>
      cases r with
      | error e => simp
      | ok allHeadlines => simp [performSentimentAnalysis]
  · rw [Bool.not_eq_true] at ha
    simp only [ha, Bool.false_eq_true, if_false]
    cases args.url with
    | none => simp
    | some url =>
      cases hf : fetchWebsiteData net elems url with
      | error e => simp [hf]
      | ok m =>
        have hsome := fetch_ok_lookup net elems url m hf
        obtain ⟨hs, hEq⟩ := Option.isSome_iff_exists.mp hsome
        simp [hf, hEq, performSentimentAnalysis]

/-! ### Claim theorems -/

/-- C1 (counterexample): with a supported URL, a reachable network and an
empty element set, the run over zero headlines still succeeds
(`Except.ok`, exit code zero) and prints `Overall Sentiment:` NaN from the
unguarded `0.0/0.0`; no `EmptyInputError` is raised, refuting the claim
that an empty headline sequence with a mean requested fails with an
explicit error and a non-zero exit. -/
theorem empty_mean_no_error_counterexample :
    runMain (fun _ => false) (fun _ _ => []) (fun _ => 0)
        ⟨some (str "https://www.nytimes.com"), false⟩ =
      some (Except.ok [Out.overall FVal.nan]) := by decide

/-- C1 (amended): whenever extraction under the resolved rule yields no
headlines, the single-URL run succeeds and its only output is the overall
sentiment NaN — the mean is an unguarded division, not a reported
`EmptyInputError` (the error type has no such kind). -/
theorem empty_mean_prints_nan (net : Str → Bool)
    (elems : Str → ExtractionRule → List Element) (score : Str → ℚ)
    (url : Str) (rule : ExtractionRule)
    (h1 : net url = false) (h2 : resolveRule url = .ok rule)
    (h3 : extractHeadlines rule.attr (elems url rule) = []) :
    runMain net elems score ⟨some url, false⟩ =
      some (Except.ok [Out.overall FVal.nan]) := by
  simp [runMain, fetchWebsiteData, h1, h2, h3, lookupMap, List.find?,
    performSentimentAnalysis, printSentimentResults, overallSentiment, fdiv]

/-- C1 (witness): the amended theorem at a concrete supported URL with an
empty document. -/
theorem empty_mean_prints_nan_witness :
    runMain (fun _ => false) (fun _ _ => []) (fun _ => 0)
        ⟨some (str "https://www.bbc.com"), false⟩ =
      some (Except.ok [Out.overall FVal.nan]) :=
  empty_mean_prints_nan (fun _ => false) (fun _ _ => []) (fun _ => 0)
    (str "https://www.bbc.com") bbcRule rfl (by decide) (by decide)

/-- C2 (counterexample): for a URL containing none of the five known
domains, resolution fails with `ScraperError.ParseError` — the very kind
the claim says the failure is distinct from; the program has no separate
`UnsupportedSiteError`. -/
theorem unsupported_site_error_kind_counterexample :
    resolveRule (str "https://example.com/news") =
      .error ScraperError.ParseError := by decide

/-- C2 (amended): for every URL containing none of the five known domain
substrings, rule resolution fails, but with `ScraperError.ParseError`,
the same error kind used for selector failures; `ScraperError` has only
`RequestError` and `ParseError`. -/
theorem unsupported_site_parse_error (url : Str)
    (h1 : containsSub url (str "nytimes.com") = false)
    (h2 : containsSub url (str "theguardian.com") = false)
    (h3 : containsSub url (str "bbc.com") = false)
    (h4 : containsSub url (str "nature.com") = false)
    (h5 : containsSub url (str "economist.com") = false) :
    resolveRule url = .error ScraperError.ParseError := by
  simp [resolveRule, h1, h2, h3, h4, h5]

/-- C2 (witness): the amended theorem at a concrete unknown URL. -/
theorem unsupported_site_parse_error_witness :
    resolveRule (str "https://example.org") = .error ScraperError.ParseError :=
  unsupported_site_parse_error (str "https://example.org")
    (by decide) (by decide) (by decide) (by decide) (by decide)

/-- C3 (counterexample): the argument structure has no way to request
sentiment, yet a single-URL run with one surviving headline prints a
`Headline:`/`Sentiment:` block and an `Overall Sentiment:` line — the
sentiment stage runs unconditionally, and the output is not the bare
headline on its own line. -/
theorem single_url_sentiment_always_counterexample :
    runMain (fun _ => false) (fun _ _ => [⟨[], [str "Big Win"]⟩]) (fun _ => 0)
        ⟨some (str "https://www.nytimes.com"), false⟩ =
      some (Except.ok [Out.headlineSentiment (str "Big Win") 0,
        Out.overall (overallSentiment [(str "Big Win", 0)])]) := rfl

/-- C3 (amended): in single-URL mode the sentiment stage always runs:
for every successfully fetched URL the output is exactly the
`print_sentiment_results` rendering of the scored headlines. -/
theorem single_url_always_runs_sentiment (net : Str → Bool)
    (elems : Str → ExtractionRule → List Element) (score : Str → ℚ)
    (url : Str) (rule : ExtractionRule)
    (h1 : net url = false) (h2 : resolveRule url = .ok rule) :
    runMain net elems score ⟨some url, false⟩ =
      some (Except.ok (printSentimentResults
        ((extractHeadlines rule.attr (elems url rule)).map
          (fun h => (h, score h))))) := by
  simp [runMain, fetchWebsiteData, h1, h2, lookupMap, List.find?,
    performSentimentAnalysis]

/-- C3 (witness): the amended theorem at a concrete Guardian URL. -/
theorem single_url_always_runs_sentiment_witness :
    runMain (fun _ => false)
        (fun _ _ => [⟨[(str "aria-label", str "Market Crash Fears Grow")], []⟩])
        (fun _ => 0) ⟨some (str "https://www.theguardian.com"), false⟩ =
      some (Except.ok (printSentimentResults
        ((extractHeadlines guardianRule.attr
            [⟨[(str "aria-label", str "Market Crash Fears Grow")], []⟩]).map
          (fun h => (h, (fun _ => (0 : ℚ)) h))))) :=
  single_url_always_runs_sentiment (fun _ => false)
    (fun _ _ => [⟨[(str "aria-label", str "Market Crash Fears Grow")], []⟩])
    (fun _ => 0) (str "https://www.theguardian.com") guardianRule rfl (by decide)

/-- C4: rule resolution is a pure function of the URL equal to first-match
lookup over the ordered five-entry table (nytimes, theguardian, bbc,
nature, economist, substring containment, first match wins); whenever it
succeeds, only the Guardian rule carries an attribute, which is
`aria-label`; the other four rules read element text. -/
theorem rule_resolution_first_match :
    (∀ url : Str, resolveRule url = resolveSpec url) ∧
    (∀ (url : Str) (r : ExtractionRule), resolveRule url = .ok r →
      r.attr.isSome = true → r = guardianRule) ∧
    guardianRule.attr = some (str "aria-label") ∧
    nytimesRule.attr = none ∧ bbcRule.attr = none ∧
    natureRule.attr = none ∧ economistRule.attr = none := by
  refine ⟨?_, ?_, rfl, rfl, rfl, rfl, rfl⟩
  · intro url
    unfold resolveRule resolveSpec ruleTable
    simp only [List.find?]
    cases containsSub url (str "nytimes.com") <;>
      cases containsSub url (str "theguardian.com") <;>
        cases containsSub url (str "bbc.com") <;>
          cases containsSub url (str "nature.com") <;>
            cases containsSub url (str "economist.com") <;> rfl
  · intro url r h hattr
    unfold resolveRule at h
    repeat' split at h
    all_goals
      first
        | exact Except.noConfusion h
        | (injection h with h; subst h;
           first
             | rfl
             | exact absurd hattr (by decide))

/-- C4 (witness): resolution at a concrete Guardian URL agrees with the
table and the hypotheses of the attribute part are dischargeable. -/
theorem rule_resolution_first_match_witness :
    resolveRule (str "https://www.theguardian.com/uk") =
        resolveSpec (str "https://www.theguardian.com/uk") ∧
    guardianRule = guardianRule :=
  ⟨rule_resolution_first_match.1 (str "https://www.theguardian.com/uk"),
   rule_resolution_first_match.2.1 (str "https://www.theguardian.com/uk")
     guardianRule (by decide) (by decide)⟩

/-- C5: filtering a singleton candidate yields the empty sequence exactly
when the trimmed candidate has word count at most one or is a denylist
entry. -/
theorem filter_singleton_empty_iff (c : Str) :
    filterHeadlines [c] = [] ↔
      wordCount (trim c) ≤ 1 ∨ trim c ∈ unwantedHeadlines := by
  rw [← keepHeadline_eq_false]
  cases h : keepHeadline (trim c) with
  | false => simp [filterHeadlines, List.filterMap_cons, h]
  | true => simp [filterHeadlines, List.filterMap_cons, h]

/-- C5 (witness): the equivalence evaluated at the one-word candidate
`"Ok"`. -/
theorem filter_singleton_empty_iff_witness :
    filterHeadlines [str "Ok"] = [] ↔
      wordCount (trim (str "Ok")) ≤ 1 ∨ trim (str "Ok") ∈ unwantedHeadlines :=
  filter_singleton_empty_iff (str "Ok")

/-- C6: for non-empty headline sequences, sentiment analysis returns one
result per headline, in order (first components are exactly the input),
and the reported average is the arithmetic mean of the scores. -/
theorem aggregation_mean_and_order (score : Str → ℚ) (hs : List Str)
    (hne : hs ≠ []) :
    performSentimentAnalysis score hs = .ok (hs.map (fun h => (h, score h))) ∧
    (hs.map (fun h => (h, score h))).map Prod.fst = hs ∧
    (hs.map (fun h => (h, score h))).length = hs.length ∧
    overallSentiment (hs.map (fun h => (h, score h))) =
      FVal.num ((hs.map score).sum / (hs.length : ℚ)) := by
  refine ⟨rfl, ?_, by simp, ?_⟩
  · rw [List.map_map]
    have hcomp : (Prod.fst ∘ fun h : Str => (h, score h)) = id := rfl
    rw [hcomp, List.map_id]
  · have hmap : (hs.map (fun h => (h, score h))).map Prod.snd = hs.map score := by
      rw [List.map_map]
      rfl
    have hlen : (hs.map (fun h => (h, score h))).length = hs.length :=
      List.length_map hs _
    rw [overallSentiment, hmap, hlen, fdiv, if_neg]
    exact fun h0 => hne (List.length_eq_zero.mp h0)

/-- C6 (witness): the aggregation contract at two constant-scored
headlines. -/
theorem aggregation_mean_and_order_witness :
    performSentimentAnalysis (fun _ => (1 : ℚ)/2) [str "a b", str "c d"] =
        .ok ([str "a b", str "c d"].map (fun h => (h, (1 : ℚ)/2))) ∧
    ([str "a b", str "c d"].map (fun h : Str => (h, (1 : ℚ)/2))).map Prod.fst =
        [str "a b", str "c d"] ∧
    ([str "a b", str "c d"].map (fun h : Str => (h, (1 : ℚ)/2))).length =
        [str "a b", str "c d"].length ∧
    overallSentiment ([str "a b", str "c d"].map (fun h : Str => (h, (1 : ℚ)/2))) =
      FVal.num (([str "a b", str "c d"].map (fun _ => (1 : ℚ)/2)).sum /
        (([str "a b", str "c d"] : List Str).length : ℚ)) :=
  aggregation_mean_and_order (fun _ => (1 : ℚ)/2) [str "a b", str "c d"]
    (by decide)

/-- C7: the headline filter is idempotent: filtering an already-filtered
sequence returns it unchanged. -/
theorem filter_idempotent (cs : List Str) :
    filterHeadlines (filterHeadlines cs) = filterHeadlines cs := by
  conv_lhs => rw [filterHeadlines_eq (filterHeadlines cs)]
  have hmap : (filterHeadlines cs).map trim = filterHeadlines cs := by
    have h1 : (filterHeadlines cs).map trim = (filterHeadlines cs).map id :=
      List.map_congr_left (fun a ha => (mem_filterHeadlines ha).1)
    rw [h1, List.map_id]
  rw [hmap]
  exact List.filter_eq_self.mpr (fun a ha => (mem_filterHeadlines ha).2)

/-- C8: the filtered sequence is a sublist (order-preserving subsequence)
of the trimmed candidates, and no deduplication happens: every string the
filter keeps occurs exactly as often as among the trimmed candidates. -/
theorem filter_order_preserving_no_dedup (cs : List Str) :
    (filterHeadlines cs).Sublist (cs.map trim) ∧
    ∀ s : Str, keepHeadline s = true →
      (filterHeadlines cs).count s = (cs.map trim).count s := by
  constructor
  · rw [filterHeadlines_eq]
    exact List.filter_sublist _
  · intro s hs
    rw [filterHeadlines_eq]
    exact List.count_filter hs

/-- C8 (witness): order preservation and multiplicity at a list with a
repeated headline. -/
theorem filter_order_preserving_no_dedup_witness :
    (filterHeadlines [str " a b ", str "a b", str "Ok"]).Sublist
        ([str " a b ", str "a b", str "Ok"].map trim) ∧
    (filterHeadlines [str " a b ", str "a b", str "Ok"]).count (str "a b") =
      ([str " a b ", str "a b", str "Ok"].map trim).count (str "a b") :=
  ⟨(filter_order_preserving_no_dedup [str " a b ", str "a b", str "Ok"]).1,
   (filter_order_preserving_no_dedup [str " a b ", str "a b", str "Ok"]).2
     (str "a b") (by decide)⟩

/-- C9: every successful `fetch_website_data` result contains the
`"headlines"` key, and no run of `main` reaches the modelled `unwrap`
panic, in either mode. -/
theorem headlines_key_always_present :
    (∀ (net : Str → Bool) (elems : Str → ExtractionRule → List Element)
        (url : Str) (m : List (Str × List Str)),
        fetchWebsiteData net elems url = .ok m →
        (lookupMap m headlinesKey).isSome = true) ∧
    (∀ (net : Str → Bool) (elems : Str → ExtractionRule → List Element)
        (score : Str → ℚ) (args : Args),
        runMain net elems score args ≠ none) :=
  ⟨fetch_ok_lookup, runMain_ne_none⟩

/-- C9 (witness): the key lookup on a concrete successful fetch and a
concrete all-sources run. -/
theorem headlines_key_always_present_witness :
    (lookupMap [(headlinesKey, [])] headlinesKey).isSome = true ∧
    runMain (fun _ => false) (fun _ _ => []) (fun _ => 0) ⟨none, true⟩ ≠ none :=
  ⟨headlines_key_always_present.1 (fun _ => false) (fun _ _ => [])
     (str "https://www.nature.com") [(headlinesKey, [])] (by decide),
   headlines_key_always_present.2 (fun _ => false) (fun _ _ => [])
     (fun _ => 0) ⟨none, true⟩⟩

/-- C10: every headline the pipeline produces is a trimmed string with at
least two whitespace-delimited words; an attribute-sourced element whose
named attribute is absent yields the empty string as candidate and
contributes no headline. -/
theorem headline_word_count_invariant :
    (∀ (attr : Option Str) (es : List Element) (h : Str),
        h ∈ extractHeadlines attr es → trim h = h ∧ 2 ≤ wordCount h) ∧
    (∀ (a : Str) (e : Element) (es : List Element), lookupAttr e a = none →
        rawCandidate (some a) e = [] ∧
        extractHeadlines (some a) (e :: es) = extractHeadlines (some a) es) := by
  constructor
  · intro attr es h hm
    obtain ⟨ht, hk⟩ := mem_filterHeadlines hm
    refine ⟨ht, ?_⟩
    simp only [keepHeadline, Bool.and_eq_true, decide_eq_true_eq] at hk
    omega
  · intro a e es hl
    have hraw : rawCandidate (some a) e = [] := by
      simp [rawCandidate, hl]
    have hkeep : keepHeadline (trim ([] : Str)) = false := by decide
    refine ⟨hraw, ?_⟩
    simp [extractHeadlines, List.map_cons, hraw, filterHeadlines,
      List.filterMap_cons, hkeep]

/-- C10 (witness): the invariant at a concrete two-word headline and a
concrete attribute-less element. -/
theorem headline_word_count_invariant_witness :
    (trim (str "Big Win") = str "Big Win" ∧ 2 ≤ wordCount (str "Big Win")) ∧
    (rawCandidate (some (str "aria-label")) ⟨[], []⟩ = [] ∧
      extractHeadlines (some (str "aria-label")) [⟨[], []⟩] =
        extractHeadlines (some (str "aria-label")) []) :=
  ⟨headline_word_count_invariant.1 none [⟨[], [str "Big Win"]⟩]
     (str "Big Win") (by decide),
   headline_word_count_invariant.2 (str "aria-label") ⟨[], []⟩ [] (by decide)⟩

end Scraper
